import Mathlib

/-!
Shallow embedding of the contacts-management backend
(goit-pythonweb-hw-10): user registration and authentication with email
verification, and per-user contact CRUD with a birthday-lookahead query.

Database tables are embedded as Lean lists of records; the SQLAlchemy
queries of the repositories become list searches; the FastAPI route
handlers become pure functions from (store, request) to an
Except-value carrying either an HTTP error (status plus detail) or the
successful response together with the updated store.
-/

namespace ContactsApp

/-- An HTTP error response: the status code and the detail string raised
through HTTPException in the Python code. -/
structure HttpError where
  status : Nat
  detail : String
deriving Repr, DecidableEq

/-- A row of the users table, as created by the migration
(alembic/versions/aaeab1c5bffb_init.py) and the ORM model used by
src/repository/users.py. created_at is irrelevant to every claim and is
omitted. -/
structure UserRec where
  id : Nat
  username : String
  email : String
  hashed_password : String
  is_verified : Bool
  avatar_url : Option String
deriving Repr, DecidableEq

/-- The users table: a list of user rows. -/
abbrev UserStore := List UserRec

/-- UserRepository.get_user_by_email (src/repository/users.py): a
SELECT filtered on the email column, scalar_one_or_none; embedded as the
first list element with that email. -/
def get_user_by_email (store : UserStore) (email : String) : Option UserRec :=
  store.find? (fun u => u.email == email)

/-- UserRepository.get_user_by_username (src/repository/users.py). -/
def get_user_by_username (store : UserStore) (username : String) : Option UserRec :=
  store.find? (fun u => u.username == username)

/-- The UserCreate request schema (src/schemas.py). -/
structure UserCreate where
  username : String
  email : String
  password : String
deriving Repr, DecidableEq

/-- The User response schema (src/schemas.py): the fields serialized by
the register endpoint. It has no hashed_password field, so a response
can never carry the hash. -/
structure UserOut where
  id : Nat
  username : String
  email : String
  is_verified : Bool
  avatar_url : Option String
deriving Repr, DecidableEq

/-- Serialization of a user row through the User response schema. -/
def toUserOut (u : UserRec) : UserOut :=
  { id := u.id, username := u.username, email := u.email,
    is_verified := u.is_verified, avatar_url := u.avatar_url }

/-- Fresh primary key for an insert into the users table. -/
def nextUserId (store : UserStore) : Nat :=
  (store.foldl (fun m u => max m u.id) 0) + 1

/-- The body of the try-block of register_user (src/api/auth.py lines
29-53): reject with 409 when the email exists, then when the username
exists; otherwise hash the password, insert the user with
is_verified false, and return it serialized through the User schema.
The password hasher is passed as a function parameter. -/
def register_user_inner (hash : String → String) (store : UserStore)
    (u : UserCreate) : Except HttpError (UserOut × UserStore) :=
  if (get_user_by_email store u.email).isSome then
    Except.error ⟨409, "User with this email already exists"⟩
  else if (get_user_by_username store u.username).isSome then
    Except.error ⟨409, "User with this username already exists"⟩
  else
    let newUser : UserRec :=
      { id := nextUserId store, username := u.username, email := u.email,
        hashed_password := hash u.password, is_verified := false,
        avatar_url := none }
    Except.ok (toUserOut newUser, store ++ [newUser])

/-- register_user (src/api/auth.py lines 19-59). The whole handler body
sits inside try/except Exception, and HTTPException is a subclass of
Exception in Python, so the 409 raised inside the try-block is caught
by the handler itself and replaced by a 500 Internal server error.
This embedding reproduces that: any error of the inner body becomes
status 500. -/
def register_user (hash : String → String) (store : UserStore)
    (u : UserCreate) : Except HttpError (UserOut × UserStore) :=
  match register_user_inner hash store u with
  | Except.ok v => Except.ok v
  | Except.error _ => Except.error ⟨500, "Internal server error"⟩

/-- Claims carried by a signed token. Modelled from the spec: the token
payload of src/services/auth.py (not under src/) carries a subject
string. -/
structure TokenClaims where
  sub : String
deriving Repr, DecidableEq

/-- Modelled from the spec: a signed, time-limited token as issued by
the Token Service of src/services/auth.py (not under src/): claims, an
expiry instant, and a signature over both made with the server secret.
The signature is embedded as the triple it authenticates, computed with
the secret, which makes forging without the secret impossible in the
model exactly as the spec intends. -/
structure TokenRec where
  claims : TokenClaims
  exp : Nat
  sig : String × TokenClaims × Nat
deriving Repr, DecidableEq

/-- Modelled from the spec: the signature over claims and expiry under
the server secret. -/
def signToken (secret : String) (claims : TokenClaims) (exp : Nat) :
    String × TokenClaims × Nat :=
  (secret, claims, exp)

/-- Modelled from the spec: issue(claims, ttl) at the current instant
now, signed with the server secret; the expiry is now + ttl seconds
(src/services/auth.py is not under src/). -/
def issue (secret : String) (claims : TokenClaims) (ttl now : Nat) : TokenRec :=
  { claims := claims, exp := now + ttl, sig := signToken secret claims (now + ttl) }

/-- Failure of token decoding. -/
inductive TokenError where
  | invalidToken
deriving Repr, DecidableEq

/-- Modelled from the spec: decode(token) at instant now fails with
InvalidToken when the signature does not verify under the server secret
or when the expiry has passed; otherwise it returns the claims
(src/services/auth.py is not under src/). -/
def decode (secret : String) (t : TokenRec) (now : Nat) :
    Except TokenError TokenClaims :=
  if t.sig = signToken secret t.claims t.exp then
    if now < t.exp then Except.ok t.claims
    else Except.error TokenError.invalidToken
  else Except.error TokenError.invalidToken

/-- Modelled from the spec: create_access_token of src/services/auth.py
(not under src/) issues a token whose sub claim is the given subject. -/
def create_access_token (secret : String) (now ttl : Nat) (sub : String) : TokenRec :=
  issue secret ⟨sub⟩ ttl now

/-- login_user (src/api/auth.py lines 62-85): look the user up by
username; 401 when absent or when the password does not verify against
the stored hash; 401 when the user is not verified; otherwise return a
bearer access token whose subject is the username. The password
verifier is passed as a function parameter. -/
def login_user (verify : String → String → Bool) (secret : String)
    (now ttl : Nat) (store : UserStore) (username password : String) :
    Except HttpError (TokenRec × String) :=
  match get_user_by_username store username with
  | none => Except.error ⟨401, "Incorrect login or password"⟩
  | some db_user =>
    if !(verify password db_user.hashed_password) then
      Except.error ⟨401, "Incorrect login or password"⟩
    else if !db_user.is_verified then
      Except.error ⟨401, "Email not verified"⟩
    else
      Except.ok (create_access_token secret now ttl db_user.username, "bearer")

/-- UserRepository.confirmed_email (src/repository/users.py lines
50-54): fetch the user by email and, when found, set its is_verified
flag to true. The ORM mutates the single row returned by the query;
embedded as replacing the first matching list element. -/
def confirmed_email_repo : UserStore → String → UserStore
  | [], _ => []
  | u :: rest, email =>
    if u.email == email then { u with is_verified := true } :: rest
    else u :: confirmed_email_repo rest email

/-- confirmed_email route (src/api/auth.py lines 88-107), after the
token has been decoded to an email: 400 when no user has that email;
when the user is already verified, report that without touching the
store; otherwise mark the user verified. -/
def confirmed_email_route (store : UserStore) (email : String) :
    Except HttpError (String × UserStore) :=
  match get_user_by_email store email with
  | none => Except.error ⟨400, "Verification error"⟩
  | some user =>
    if user.is_verified then
      Except.ok ("Your email is already verified", store)
    else
      Except.ok ("Email verified successfully", confirmed_email_repo store email)

/-- request_email route (src/api/auth.py lines 110-128): the response
(status, body-message). When the user exists and is verified the body
says the email is already verified; in every other case, user present
or not, the body asks to check the mailbox. The store is never
modified; email dispatch is background work outside the response. -/
def request_email (store : UserStore) (email : String) : Nat × String :=
  match get_user_by_email store email with
  | some u =>
    if u.is_verified then (200, "Your email is already verified")
    else (200, "Check your email for verification")
  | none => (200, "Check your email for verification")

/-- UserRepository.update_avatar_url (src/repository/users.py lines
56-62): fetch the user by email; when found, set avatar_url and return
the refreshed user; when absent, fall through and return the None the
lookup produced, despite the declared User return type. Returns the
function result together with the resulting store. -/
def update_avatar_url : UserStore → String → String → Option UserRec × UserStore
  | [], _, _ => (none, [])
  | u :: rest, email, url =>
    if u.email == email then
      (some { u with avatar_url := some url },
       { u with avatar_url := some url } :: rest)
    else
      let r := update_avatar_url rest email url
      (r.1, u :: r.2)

/-- A calendar date (year, month, day). -/
structure Date where
  year : Nat
  month : Nat
  day : Nat
deriving Repr, DecidableEq

/-- Gregorian leap-year rule. -/
def Date.isLeap (y : Nat) : Bool :=
  (y % 4 == 0 && y % 100 != 0) || y % 400 == 0

/-- Number of days in a month of a given year. -/
def daysInMonth (y m : Nat) : Nat :=
  if m == 2 then (if Date.isLeap y then 29 else 28)
  else if m == 4 || m == 6 || m == 9 || m == 11 then 30
  else 31

/-- The day after a date, rolling over month and year ends. -/
def Date.next (d : Date) : Date :=
  if d.day < daysInMonth d.year d.month then ⟨d.year, d.month, d.day + 1⟩
  else if d.month < 12 then ⟨d.year, d.month + 1, 1⟩
  else ⟨d.year + 1, 1, 1⟩

/-- The date n days after d. -/
def Date.addDays (d : Date) : Nat → Date
  | 0 => d
  | n + 1 => (d.next).addDays n

/-- Strict chronological order on dates. -/
def Date.lt (a b : Date) : Bool :=
  a.year < b.year ||
    (a.year == b.year &&
      (a.month < b.month || (a.month == b.month && a.day < b.day)))

/-- A row of the contacts table, per the migration
(alembic/versions/aaeab1c5bffb_init.py): globally unique email and
phone columns, a required owning user_id. Timestamps are Nat
instants. -/
structure Contact where
  id : Nat
  name : String
  surname : String
  email : String
  phone : String
  birthday : Date
  info : Option String
  created_at : Nat
  updated_at : Option Nat
  user_id : Nat
deriving Repr, DecidableEq

/-- The contacts table: a list of contact rows. -/
abbrev ContactStore := List Contact

/-- The ContactModel request schema (src/schemas.py): the validated
request body for contact creation and update. -/
structure ContactModel where
  name : String
  surname : String
  email : String
  phone : String
  birthday : Date
  info : Option String
  user_id : Nat
deriving Repr, DecidableEq

/-- Modelled from the spec: ContactRepository.is_contact_exists of
src/repository/contacts.py is not under src/; per the spec a contact
with the same email or phone already existing anywhere, not just for
this owner, counts as a duplicate. -/
def is_contact_exists (store : ContactStore) (email phone : String) : Bool :=
  store.any (fun c => c.email == email || c.phone == phone)

/-- Fresh primary key for an insert into the contacts table. -/
def nextContactId (store : ContactStore) : Nat :=
  (store.foldl (fun m c => max m c.id) 0) + 1

/-- Modelled from the spec: ContactRepository.create_contact of
src/repository/contacts.py is not under src/; per the spec it persists
the body linked to the owner. -/
def repo_create_contact (store : ContactStore) (body : ContactModel)
    (owner : UserRec) (now : Nat) : Contact × ContactStore :=
  let c : Contact :=
    { id := nextContactId store, name := body.name, surname := body.surname,
      email := body.email, phone := body.phone, birthday := body.birthday,
      info := body.info, created_at := now, updated_at := none,
      user_id := owner.id }
  (c, store ++ [c])

/-- Modelled from the spec: ContactRepository.get_contact_by_id of
src/repository/contacts.py is not under src/; per the spec every
contact operation is scoped to the requesting owner, so the lookup
filters on both the contact id and the owning user id. -/
def get_contact_by_id (store : ContactStore) (contact_id : Nat)
    (owner : UserRec) : Option Contact :=
  store.find? (fun c => c.id == contact_id && c.user_id == owner.id)

/-- The contact produced by applying an update body to an existing row:
every mutable field is replaced by the body and updated_at is
refreshed; id, created_at and the owner linkage are kept. -/
def applyUpdate (c : Contact) (body : ContactModel) (now : Nat) : Contact :=
  { id := c.id, name := body.name, surname := body.surname,
    email := body.email, phone := body.phone, birthday := body.birthday,
    info := body.info, created_at := c.created_at, updated_at := some now,
    user_id := c.user_id }

/-- Modelled from the spec: ContactRepository.update_contact of
src/repository/contacts.py is not under src/; per the spec it replaces
all mutable fields of the owner-scoped contact and refreshes
updated_at, returning None when the contact is absent under that
owner. -/
def repo_update_contact : ContactStore → Nat → ContactModel → UserRec → Nat →
    Option Contact × ContactStore
  | [], _, _, _, _ => (none, [])
  | c :: rest, cid, body, owner, now =>
    if c.id == cid && c.user_id == owner.id then
      (some (applyUpdate c body now), applyUpdate c body now :: rest)
    else
      let r := repo_update_contact rest cid body owner now
      (r.1, c :: r.2)

/-- Modelled from the spec: ContactRepository.remove_contact of
src/repository/contacts.py is not under src/; per the spec it is a
hard delete of the owner-scoped contact, returning None when absent. -/
def repo_remove_contact (store : ContactStore) (cid : Nat) (owner : UserRec) :
    Option Contact × ContactStore :=
  match get_contact_by_id store cid owner with
  | none => (none, store)
  | some c => (some c, store.erase c)

/-- ContactService.create_contact (src/services/contacts.py lines
13-19): 400 when a contact with the body email or phone already
exists, otherwise delegate to the repository insert. The detail string
interpolates the offending email and phone in the source; the quoting
is elided here. -/
def create_contact (store : ContactStore) (body : ContactModel)
    (owner : UserRec) (now : Nat) : Except HttpError (Contact × ContactStore) :=
  if is_contact_exists store body.email body.phone then
    Except.error ⟨400, "Contact with this email or phone number already exists."⟩
  else
    Except.ok (repo_create_contact store body owner now)

/-- ContactService.get_contact (src/services/contacts.py lines 28-35):
404 when the owner-scoped lookup returns nothing. -/
def get_contact (store : ContactStore) (cid : Nat) (owner : UserRec) :
    Except HttpError Contact :=
  match get_contact_by_id store cid owner with
  | none => Except.error ⟨404, "Contact not found"⟩
  | some c => Except.ok c

/-- ContactService.update_contact (src/services/contacts.py lines
37-44): 404 when the repository update found nothing. -/
def update_contact (store : ContactStore) (cid : Nat) (body : ContactModel)
    (owner : UserRec) (now : Nat) : Except HttpError (Contact × ContactStore) :=
  match repo_update_contact store cid body owner now with
  | (none, _) => Except.error ⟨404, "Contact not found"⟩
  | (some c, s) => Except.ok (c, s)

/-- ContactService.remove_contact (src/services/contacts.py lines
46-53): 404 when the repository delete found nothing. -/
def remove_contact (store : ContactStore) (cid : Nat) (owner : UserRec) :
    Except HttpError (Contact × ContactStore) :=
  match repo_remove_contact store cid owner with
  | (none, _) => Except.error ⟨404, "Contact not found"⟩
  | (some c, s) => Except.ok (c, s)

/-- Modelled from the spec: the window test of
ContactRepository.get_upcoming_birthdays (src/repository/contacts.py,
not under src/): the birthday month and day, year ignored, equal those
of some date in the inclusive window from today to today + days, which
handles month and year wraparound. -/
def birthdayInWindow (today : Date) (days : Nat) (b : Date) : Bool :=
  (List.range (days + 1)).any (fun k =>
    (today.addDays k).month == b.month && (today.addDays k).day == b.day)

/-- Modelled from the spec: get_upcoming_birthdays (reached through
ContactService.get_upcoming_birthdays, src/services/contacts.py lines
55-56; the repository is not under src/): the contacts of the
requesting owner whose birthday falls in the window. -/
def get_upcoming_birthdays (store : ContactStore) (days : Nat)
    (owner : UserRec) (today : Date) : ContactStore :=
  store.filter (fun c => c.user_id == owner.id && birthdayInWindow today days c.birthday)

/-- ASCII decimal digit, the digits the international phone format
means by a digit. -/
def isAsciiDigit (c : Char) : Bool :=
  48 ≤ c.toNat && c.toNat ≤ 57

/-- ASCII digit 1 through 9. -/
def isNonZeroDigit (c : Char) : Bool :=
  49 ≤ c.toNat && c.toNat ≤ 57

/-- The anchored regular expression of the phone validator
(src/schemas.py lines 19-26), evaluated structurally: an optional
leading plus sign, a digit 1-9, then one to fourteen digits, end of
string. -/
def phoneRegexAccepts (s : String) : Bool :=
  match s.toList with
  | [] => false
  | c :: rest =>
    match (if c == '+' then rest else c :: rest) with
    | [] => false
    | d :: tail =>
      isNonZeroDigit d && decide (1 ≤ tail.length) &&
        decide (tail.length ≤ 14) && tail.all isAsciiDigit

/-- Validation of the phone field of ContactModel (src/schemas.py):
the Field constraints min_length 7 and max_length 20 together with the
validate_phone regular-expression validator. -/
def validate_phone_field (s : String) : Bool :=
  decide (7 ≤ s.toList.length) && decide (s.toList.length ≤ 20) &&
    phoneRegexAccepts s

/-- Validation of the birthday field of ContactModel (src/schemas.py
lines 28-32): a value strictly after today is rejected. -/
def validate_birthday_field (today b : Date) : Bool :=
  !(Date.lt today b)

/-- No contact in the table has the given id under the given owner; in
particular a contact whose id matches but that belongs to a different
user leaves this predicate true. -/
abbrev no_owned_contact (store : ContactStore) (cid : Nat) (owner : UserRec) : Prop :=
  ∀ c ∈ store, c.id = cid → c.user_id ≠ owner.id

/-! Helper lemmas about the list-embedded stores. -/

/-- A member that is the unique satisfier of the search predicate is
what the row lookup returns. -/
theorem find?_eq_some_of_unique {α : Type} (p : α → Bool) (l : List α) (a : α)
    (ha : a ∈ l) (hpa : p a = true) (huniq : ∀ x ∈ l, p x = true → x = a) :
    l.find? p = some a := by
  induction l with
  | nil => cases ha
  | cons b t ih =>
    by_cases hb : p b = true
    · have hba : b = a := huniq b (List.mem_cons_self b t) hb
      rw [List.find?_cons_of_pos t hb, hba]
    · rw [List.find?_cons_of_neg t hb]
      have hat : a ∈ t := by
        rcases List.mem_cons.mp ha with h | h
        · exact absurd (h ▸ hpa) hb
        · exact h
      exact ih hat (fun x hx hpx => huniq x (List.mem_cons_of_mem _ hx) hpx)

/-- After marking the user with the given email verified, the email
lookup returns that user with the flag set. -/
theorem confirmed_repo_find (store : UserStore) (email : String) (u : UserRec)
    (h : get_user_by_email store email = some u) :
    get_user_by_email (confirmed_email_repo store email) email =
      some { u with is_verified := true } := by
  induction store with
  | nil => simp [get_user_by_email] at h
  | cons a rest ih =>
    unfold get_user_by_email at h ⊢
    cases ha : a.email == email with
    | true =>
      simp only [List.find?, ha] at h
      injection h with h
      subst h
      simp [confirmed_email_repo, ha, List.find?]
    | false =>
      simp only [List.find?, ha] at h
      simp only [confirmed_email_repo, ha, Bool.false_eq_true, if_false,
        List.find?, ha]
      exact ih h

/-- Marking a user verified rewrites each row either to itself or, when
its email matches, to itself with the flag set; in particular a set
flag is never cleared. -/
theorem confirmed_repo_get (store : UserStore) (email : String) :
    ∀ (i : Nat) (u : UserRec), store[i]? = some u →
      ∃ v, (confirmed_email_repo store email)[i]? = some v ∧
        (v = u ∨ (u.email = email ∧ v = { u with is_verified := true })) := by
  induction store with
  | nil => intro i u h; simp at h
  | cons a rest ih =>
    intro i u h
    cases ha : a.email == email with
    | true =>
      simp only [confirmed_email_repo, ha, if_true]
      cases i with
      | zero =>
        simp only [List.getElem?_cons_zero, Option.some.injEq] at h
        subst h
        exact ⟨{ a with is_verified := true }, by simp,
          Or.inr ⟨by simpa using ha, rfl⟩⟩
      | succ i =>
        simp only [List.getElem?_cons_succ] at h ⊢
        exact ⟨u, h, Or.inl rfl⟩
    | false =>
      simp only [confirmed_email_repo, ha, Bool.false_eq_true, if_false]
      cases i with
      | zero =>
        simp only [List.getElem?_cons_zero, Option.some.injEq] at h
        subst h
        exact ⟨a, by simp, Or.inl rfl⟩
      | succ i =>
        simp only [List.getElem?_cons_succ] at h ⊢
        exact ih i u h

/-- When no row has the email, the avatar update returns None and the
store untouched. -/
theorem update_avatar_none (store : UserStore) (email url : String)
    (h : ∀ u ∈ store, u.email ≠ email) :
    update_avatar_url store email url = (none, store) := by
  induction store with
  | nil => rfl
  | cons a rest ih =>
    have ha : (a.email == email) = false := by
      simpa using h a (List.mem_cons_self a rest)
    simp only [update_avatar_url, ha, Bool.false_eq_true, if_false]
    rw [ih (fun u hu => h u (List.mem_cons_of_mem _ hu))]

/-- The avatar update returns the looked-up user with only the
avatar_url field replaced. -/
theorem update_avatar_find (store : UserStore) (email url : String) (u : UserRec)
    (h : get_user_by_email store email = some u) :
    (update_avatar_url store email url).1 = some { u with avatar_url := some url } := by
  induction store with
  | nil => simp [get_user_by_email] at h
  | cons a rest ih =>
    unfold get_user_by_email at h
    cases ha : a.email == email with
    | true =>
      simp only [List.find?, ha] at h
      injection h with h
      subst h
      simp [update_avatar_url, ha]
    | false =>
      simp only [List.find?, ha] at h
      simp only [update_avatar_url, ha, Bool.false_eq_true, if_false]
      exact ih h

/-- The avatar update keeps every row in place, changing at most its
avatar_url field; every other field, is_verified included, is kept. -/
theorem update_avatar_get (store : UserStore) (email url : String) :
    ∀ (i : Nat) (u : UserRec), store[i]? = some u →
      ∃ v, (update_avatar_url store email url).2[i]? = some v ∧
        (v = u ∨ (u.email = email ∧ v = { u with avatar_url := some url })) := by
  induction store with
  | nil => intro i u h; simp at h
  | cons a rest ih =>
    intro i u h
    cases ha : a.email == email with
    | true =>
      simp only [update_avatar_url, ha, if_true]
      cases i with
      | zero =>
        simp only [List.getElem?_cons_zero, Option.some.injEq] at h
        subst h
        exact ⟨{ a with avatar_url := some url }, by simp,
          Or.inr ⟨by simpa using ha, rfl⟩⟩
      | succ i =>
        simp only [List.getElem?_cons_succ] at h ⊢
        exact ⟨u, h, Or.inl rfl⟩
    | false =>
      simp only [update_avatar_url, ha, Bool.false_eq_true, if_false]
      cases i with
      | zero =>
        simp only [List.getElem?_cons_zero, Option.some.injEq] at h
        subst h
        exact ⟨a, by simp, Or.inl rfl⟩
      | succ i =>
        simp only [List.getElem?_cons_succ] at h ⊢
        exact ih i u h

/-- The avatar update preserves the length of the users table. -/
theorem update_avatar_length (store : UserStore) (email url : String) :
    (update_avatar_url store email url).2.length = store.length := by
  induction store with
  | nil => rfl
  | cons a rest ih =>
    by_cases ha : (a.email == email) = true
    · simp [update_avatar_url, ha]
    · simp only [update_avatar_url, ha, Bool.false_eq_true, if_false,
        List.length_cons]
      rw [ih]

/-- When the owner-scoped lookup fails, the repository update reports
nothing found and leaves the contacts table untouched. -/
theorem repo_update_none (store : ContactStore) (cid : Nat)
    (body : ContactModel) (owner : UserRec) (now : Nat)
    (h : get_contact_by_id store cid owner = none) :
    repo_update_contact store cid body owner now = (none, store) := by
  induction store with
  | nil => rfl
  | cons a rest ih =>
    unfold get_contact_by_id at h
    cases ha : a.id == cid && a.user_id == owner.id with
    | true =>
      simp only [List.find?, ha] at h
      exact absurd h (by simp)
    | false =>
      simp only [List.find?, ha] at h
      simp only [repo_update_contact, ha, Bool.false_eq_true, if_false]
      rw [ih h]

/-- When the owner-scoped lookup finds a contact, the repository update
rewrites exactly that row, at its position, to the body with a
refreshed updated_at. -/
theorem repo_update_found (store : ContactStore) (cid : Nat)
    (body : ContactModel) (owner : UserRec) (now : Nat) (c : Contact)
    (h : get_contact_by_id store cid owner = some c) :
    ∃ i : Nat, store[i]? = some c ∧
      repo_update_contact store cid body owner now =
        (some (applyUpdate c body now), store.set i (applyUpdate c body now)) := by
  induction store with
  | nil => simp [get_contact_by_id] at h
  | cons a rest ih =>
    unfold get_contact_by_id at h
    cases ha : a.id == cid && a.user_id == owner.id with
    | true =>
      simp only [List.find?, ha] at h
      injection h with h
      subst h
      refine ⟨0, by simp, ?_⟩
      simp [repo_update_contact, ha]
    | false =>
      simp only [List.find?, ha] at h
      obtain ⟨i, hi, heq⟩ := ih h
      refine ⟨i + 1, by simpa using hi, ?_⟩
      simp only [repo_update_contact, ha, Bool.false_eq_true, if_false, heq,
        List.set_cons_succ]

/-- A successful registration appends a single new row, leaving every
existing row in place. -/
theorem register_ok_append (hash : String → String) (store : UserStore)
    (uc : UserCreate) (out : UserOut) (s2 : UserStore)
    (h : register_user hash store uc = Except.ok (out, s2)) :
    ∃ w : UserRec, s2 = store ++ [w] := by
  unfold register_user register_user_inner at h
  by_cases h1 : (get_user_by_email store uc.email).isSome
  · simp [h1] at h
  · by_cases h2 : (get_user_by_username store uc.username).isSome
    · simp [h1, h2] at h
    · simp [h1, h2] at h
      exact ⟨_, h.2.symm⟩

/-- A successful email lookup returns a member with that email. -/
theorem get_user_by_email_eq_some (store : UserStore) (email : String)
    (u : UserRec) (h : get_user_by_email store email = some u) :
    u ∈ store ∧ u.email = email := by
  unfold get_user_by_email at h
  exact ⟨List.mem_of_find?_eq_some h, by simpa using List.find?_some h⟩

/-- The email lookup fails exactly on a store with no such email. -/
theorem get_user_by_email_eq_none (store : UserStore) (email : String)
    (h : ∀ u ∈ store, u.email ≠ email) : get_user_by_email store email = none := by
  unfold get_user_by_email
  exact List.find?_eq_none.mpr (fun x hx => by simpa using h x hx)

/-- A successful username lookup returns a member with that username. -/
theorem get_user_by_username_eq_some (store : UserStore) (username : String)
    (u : UserRec) (h : get_user_by_username store username = some u) :
    u ∈ store ∧ u.username = username := by
  unfold get_user_by_username at h
  exact ⟨List.mem_of_find?_eq_some h, by simpa using List.find?_some h⟩

/-- The username lookup fails exactly on a store with no such
username. -/
theorem get_user_by_username_eq_none (store : UserStore) (username : String)
    (h : ∀ u ∈ store, u.username ≠ username) :
    get_user_by_username store username = none := by
  unfold get_user_by_username
  exact List.find?_eq_none.mpr (fun x hx => by simpa using h x hx)

/-- On a store with unique usernames, the username lookup finds any
member carrying the username. -/
theorem get_user_by_username_of_unique (store : UserStore) (username : String)
    (u : UserRec) (huniq : (store.map UserRec.username).Nodup)
    (hu : u ∈ store) (hn : u.username = username) :
    get_user_by_username store username = some u := by
  unfold get_user_by_username
  refine find?_eq_some_of_unique _ store u hu (by simpa using hn) ?_
  intro x hx hpx
  have hxname : x.username = u.username := by
    have : x.username = username := by simpa using hpx
    rw [this, hn]
  exact List.inj_on_of_nodup_map huniq hx hu hxname

/-- A successful owner-scoped contact lookup returns a member with that
id owned by that user. -/
theorem get_contact_by_id_eq_some (store : ContactStore) (cid : Nat)
    (owner : UserRec) (c : Contact)
    (h : get_contact_by_id store cid owner = some c) :
    c ∈ store ∧ c.id = cid ∧ c.user_id = owner.id := by
  unfold get_contact_by_id at h
  have hp := List.find?_some h
  simp only [Bool.and_eq_true, beq_iff_eq] at hp
  exact ⟨List.mem_of_find?_eq_some h, hp.1, hp.2⟩

/-- The owner-scoped contact lookup fails exactly when no contact has
that id under that owner. -/
theorem get_contact_by_id_eq_none (store : ContactStore) (cid : Nat)
    (owner : UserRec) (h : ∀ c ∈ store, c.id = cid → c.user_id ≠ owner.id) :
    get_contact_by_id store cid owner = none := by
  unfold get_contact_by_id
  refine List.find?_eq_none.mpr (fun x hx => ?_)
  simp only [Bool.and_eq_true, beq_iff_eq, not_and]
  exact fun h1 => h x hx h1

/-- On a store with unique contact ids, the owner-scoped lookup finds
any member with the id owned by the user. -/
theorem get_contact_by_id_of_unique (store : ContactStore) (cid : Nat)
    (owner : UserRec) (c : Contact) (hids : (store.map Contact.id).Nodup)
    (hc : c ∈ store) (h1 : c.id = cid) (h2 : c.user_id = owner.id) :
    get_contact_by_id store cid owner = some c := by
  unfold get_contact_by_id
  refine find?_eq_some_of_unique _ store c hc (by simp [h1, h2]) ?_
  intro x hx hpx
  simp only [Bool.and_eq_true, beq_iff_eq] at hpx
  have hxid : x.id = c.id := by rw [hpx.1, h1]
  exact List.inj_on_of_nodup_map hids hx hc hxid

/-! Claim theorems. -/

/-- C1: registering with a taken email or username is claimed to fail
with HTTP 409 Conflict. The try-block of register_user does construct
the 409 responses, as the first two conjuncts show on the inner body,
but the blanket except-Exception handler of the same function catches
its own HTTPException and replaces it by a 500 Internal server error,
as the middle conjuncts show, so the endpoint never answers 409 on a
conflict. A fresh registration does persist the user with
is_verified false and returns it through the hash-free User schema
(last conjunct). -/
theorem c1_register_conflict_answered_with_500 :
    (register_user_inner (fun p => p ++ "-hashed")
        [⟨1, "alice", "alice@x.com", "h1", true, none⟩]
        ⟨"bob", "alice@x.com", "secret1"⟩ =
      Except.error ⟨409, "User with this email already exists"⟩)
  ∧ (register_user_inner (fun p => p ++ "-hashed")
        [⟨1, "alice", "alice@x.com", "h1", true, none⟩]
        ⟨"alice", "new@x.com", "secret1"⟩ =
      Except.error ⟨409, "User with this username already exists"⟩)
  ∧ (register_user (fun p => p ++ "-hashed")
        [⟨1, "alice", "alice@x.com", "h1", true, none⟩]
        ⟨"bob", "alice@x.com", "secret1"⟩ =
      Except.error ⟨500, "Internal server error"⟩)
  ∧ (register_user (fun p => p ++ "-hashed")
        [⟨1, "alice", "alice@x.com", "h1", true, none⟩]
        ⟨"alice", "new@x.com", "secret1"⟩ =
      Except.error ⟨500, "Internal server error"⟩)
  ∧ (register_user (fun p => p ++ "-hashed") []
        ⟨"alice", "alice@x.com", "secret1"⟩ =
      Except.ok (⟨1, "alice", "alice@x.com", false, none⟩,
        [⟨1, "alice", "alice@x.com", "secret1-hashed", false, none⟩])) := by
  refine ⟨rfl, rfl, rfl, rfl, rfl⟩

/-- C8: decoding a token issued from given claims before its ttl has
elapsed returns the original claims; decoding at or after the expiry
instant fails with InvalidToken; decoding any token whose signature is
not the one the secret produces over its claims and expiry fails with
InvalidToken. -/
theorem c8_token_roundtrip_and_expiry (secret : String)
    (claims : TokenClaims) (ttl now t : Nat) :
    (t < now + ttl → decode secret (issue secret claims ttl now) t = Except.ok claims)
  ∧ (now + ttl ≤ t → decode secret (issue secret claims ttl now) t =
      Except.error TokenError.invalidToken)
  ∧ (∀ tok : TokenRec, tok.sig ≠ signToken secret tok.claims tok.exp →
      decode secret tok t = Except.error TokenError.invalidToken) := by
  refine ⟨?_, ?_, ?_⟩
  · intro h
    simp [decode, issue, signToken, h]
  · intro h
    have h2 : ¬ (t < now + ttl) := Nat.not_lt.mpr h
    simp [decode, issue, signToken, h2]
  · intro tok htok
    simp [decode, htok]

/-- Witness for C8 at concrete inputs: a token issued at instant 100
with ttl 60 decodes to its claims at instant 130, fails at instant 160,
and a token with a forged signature fails. -/
theorem c8_witness :
    decode ("s") (issue ("s") ⟨"alice"⟩ 60 100) 130 = Except.ok ⟨"alice"⟩
  ∧ decode ("s") (issue ("s") ⟨"alice"⟩ 60 100) 160 =
      Except.error TokenError.invalidToken
  ∧ decode ("s") ⟨⟨"alice"⟩, 160, ("forged", ⟨"alice"⟩, 160)⟩ 130 =
      Except.error TokenError.invalidToken :=
  ⟨(c8_token_roundtrip_and_expiry ("s") ⟨"alice"⟩ 60 100 130).1 (by decide),
   (c8_token_roundtrip_and_expiry ("s") ⟨"alice"⟩ 60 100 160).2.1 (by decide),
   (c8_token_roundtrip_and_expiry ("s") ⟨"alice"⟩ 60 100 130).2.2
     ⟨⟨"alice"⟩, 160, ("forged", ⟨"alice"⟩, 160)⟩ (by decide)⟩

/-- C10: when no user carries the email, update_avatar_url returns
None, the declared User return type notwithstanding, and the store is
unchanged; when the lookup finds a user, the returned value is that
user with only the avatar_url field replaced, the store keeps its
length, and every row is either untouched or, when its email matches,
rewritten with only its avatar_url field replaced. -/
theorem c10_update_avatar_url_spec (store : UserStore) (email url : String) :
    ((∀ u ∈ store, u.email ≠ email) →
      update_avatar_url store email url = (none, store))
  ∧ (∀ u : UserRec, get_user_by_email store email = some u →
      (update_avatar_url store email url).1 =
        some { u with avatar_url := some url })
  ∧ ((update_avatar_url store email url).2.length = store.length)
  ∧ (∀ (i : Nat) (u : UserRec), store[i]? = some u →
      ∃ v, (update_avatar_url store email url).2[i]? = some v ∧
        (v = u ∨ (u.email = email ∧ v = { u with avatar_url := some url }))) :=
  ⟨fun h => update_avatar_none store email url h,
   fun u hu => update_avatar_find store email url u hu,
   update_avatar_length store email url,
   fun i u h => update_avatar_get store email url i u h⟩

/-- Witness for C10 at a concrete input: an absent email returns None
and leaves the store unchanged. -/
theorem c10_witness :
    update_avatar_url [⟨1, "alice", "a@x.com", "h1", false, none⟩]
        ("b@x.com") ("http://img") =
      (none, [⟨1, "alice", "a@x.com", "h1", false, none⟩]) :=
  (c10_update_avatar_url_spec [⟨1, "alice", "a@x.com", "h1", false, none⟩]
    ("b@x.com") ("http://img")).1 (by decide)

/-- C3 counterexample: for the pair of resend-verification requests,
one with the email of an existing already-verified user and one with an
email belonging to no user, the two responses differ in their body, so
the externally visible response is not identical for every such
pair. -/
theorem c3_request_email_counterexample :
    request_email [⟨1, "alice", "alice@x.com", "h1", true, none⟩]
        ("alice@x.com") ≠
      request_email [⟨1, "alice", "alice@x.com", "h1", true, none⟩]
        ("bob@x.com") := by
  decide

/-- C3 (amended): the resend-verification response always has status
200, and whenever the email belongs to no verified user, so to an
unverified user or to nobody, the response equals the one for an email
belonging to no user; only an already-verified user makes the body
differ. The store is never modified by this handler, dispatch being
background work. -/
theorem c3_request_email_no_leak (store : UserStore) (e1 e2 : String)
    (h1 : ∀ u ∈ store, u.email = e1 → u.is_verified = false)
    (h2 : ∀ u ∈ store, u.email ≠ e2) :
    request_email store e1 = request_email store e2
  ∧ (∀ e : String, (request_email store e).1 = 200) := by
  have hf2 : get_user_by_email store e2 = none := get_user_by_email_eq_none store e2 h2
  constructor
  · rcases hf1 : get_user_by_email store e1 with _ | u
    · simp [request_email, hf1, hf2]
    · obtain ⟨hmem, hmail⟩ := get_user_by_email_eq_some store e1 u hf1
      have hu : u.is_verified = false := h1 u hmem hmail
      simp [request_email, hf1, hf2, hu]
  · intro e
    rcases hf : get_user_by_email store e with _ | u
    · simp [request_email, hf]
    · cases hu : u.is_verified <;> simp [request_email, hf, hu]

/-- Witness for the amended C3 at a concrete input: with one unverified
user on file, the response for the email of that user equals the response
for an unknown email. -/
theorem c3_witness :
    request_email [⟨1, "alice", "alice@x.com", "h1", false, none⟩]
        ("alice@x.com") =
      request_email [⟨1, "alice", "alice@x.com", "h1", false, none⟩]
        ("bob@x.com")
  ∧ (∀ e : String,
      (request_email [⟨1, "alice", "alice@x.com", "h1", false, none⟩] e).1 = 200) :=
  c3_request_email_no_leak [⟨1, "alice", "alice@x.com", "h1", false, none⟩]
    ("alice@x.com") ("bob@x.com") (by decide) (by decide)

/-- C2: on a users table with unique usernames, login fails exactly
when no user carries the username, or the password does not verify
against the stored hash, or the user is unverified; every failure is a
401; and on success it returns a bearer access token whose subject is
the username of that user. -/
theorem c2_login_unauthorized_iff (verify : String → String → Bool)
    (secret : String) (now ttl : Nat) (store : UserStore)
    (username password : String)
    (huniq : (store.map UserRec.username).Nodup) :
    ((∃ e, login_user verify secret now ttl store username password =
        Except.error e) ↔
      ¬ ∃ u ∈ store, u.username = username ∧
          verify password u.hashed_password = true ∧ u.is_verified = true)
  ∧ (∀ e, login_user verify secret now ttl store username password =
        Except.error e → e.status = 401)
  ∧ (∀ u ∈ store, u.username = username →
      verify password u.hashed_password = true → u.is_verified = true →
      login_user verify secret now ttl store username password =
        Except.ok (create_access_token secret now ttl u.username, "bearer") ∧
      (create_access_token secret now ttl u.username).claims.sub = u.username) := by
  rcases hfind : get_user_by_username store username with _ | w
  · have habs : ∀ u ∈ store, u.username ≠ username := by
      intro u hu heq
      unfold get_user_by_username at hfind
      have hnp := List.find?_eq_none.mp hfind u hu
      simp [heq] at hnp
    have hres : login_user verify secret now ttl store username password =
        Except.error ⟨401, "Incorrect login or password"⟩ := by
      simp [login_user, hfind]
    refine ⟨?_, ?_, ?_⟩
    · constructor
      · rintro - ⟨u, hu, hn, -⟩
        exact habs u hu hn
      · intro _
        exact ⟨_, hres⟩
    · intro e he
      rw [hres] at he
      injection he with he
      rw [← he]
    · intro u hu hn
      exact absurd hn (habs u hu)
  · obtain ⟨hwmem, hwname⟩ := get_user_by_username_eq_some store username w hfind
    have huw : ∀ u ∈ store, u.username = username → u = w := by
      intro u hu hn
      have heq : u.username = w.username := by rw [hn, hwname]
      exact List.inj_on_of_nodup_map huniq hu hwmem heq
    cases hv : verify password w.hashed_password with
    | false =>
      have hres : login_user verify secret now ttl store username password =
          Except.error ⟨401, "Incorrect login or password"⟩ := by
        simp [login_user, hfind, hv]
      refine ⟨?_, ?_, ?_⟩
      · constructor
        · rintro - ⟨u, hu, hn, hv2, -⟩
          obtain rfl := huw u hu hn
          simp [hv] at hv2
        · intro _
          exact ⟨_, hres⟩
      · intro e he
        rw [hres] at he
        injection he with he
        rw [← he]
      · intro u hu hn hv2
        obtain rfl := huw u hu hn
        simp [hv] at hv2
    | true =>
      cases hver : w.is_verified with
      | false =>
        have hres : login_user verify secret now ttl store username password =
            Except.error ⟨401, "Email not verified"⟩ := by
          simp [login_user, hfind, hv, hver]
        refine ⟨?_, ?_, ?_⟩
        · constructor
          · rintro - ⟨u, hu, hn, -, hver2⟩
            obtain rfl := huw u hu hn
            simp [hver] at hver2
          · intro _
            exact ⟨_, hres⟩
        · intro e he
          rw [hres] at he
          injection he with he
          rw [← he]
        · intro u hu hn hv2 hver2
          obtain rfl := huw u hu hn
          simp [hver] at hver2
      | true =>
        have hres : login_user verify secret now ttl store username password =
            Except.ok (create_access_token secret now ttl w.username, "bearer") := by
          simp [login_user, hfind, hv, hver]
        refine ⟨?_, ?_, ?_⟩
        · constructor
          · rintro ⟨e, he⟩
            rw [hres] at he
            simp at he
          · intro hno
            exact absurd ⟨w, hwmem, hwname, hv, hver⟩ hno
        · intro e he
          rw [hres] at he
          simp at he
        · intro u hu hn hv2 hver2
          obtain rfl := huw u hu hn
          exact ⟨hres, rfl⟩

/-- Witness for C2 at concrete inputs: with one verified user on file
whose stored hash is the reverse-convention hash of the password, login
succeeds with a bearer token carrying the username; and the equivalence
holds. -/
theorem c2_witness :
    login_user (fun p h => p == h) ("s") 0 60
        [⟨1, "alice", "a@x.com", "pw1", true, none⟩] ("alice") ("pw1") =
      Except.ok (create_access_token ("s") 0 60 "alice", "bearer")
  ∧ (create_access_token ("s") 0 60 "alice").claims.sub = "alice" :=
  (c2_login_unauthorized_iff (fun p h => p == h) ("s") 0 60
      [⟨1, "alice", "a@x.com", "pw1", true, none⟩] ("alice") ("pw1")
      (by decide)).2.2
    ⟨1, "alice", "a@x.com", "pw1", true, none⟩ (by decide) (by decide)
    (by decide) (by decide)

/-- C4: contact creation fails with the Duplicate error exactly when
any contact in the table, whoever owns it, already carries the body
email or the body phone, and in that case nothing is persisted; with no
such duplicate the contact is appended, linked to the requesting
owner, with the body fields and a fresh created_at. -/
theorem c4_create_contact_global_duplicate (store : ContactStore)
    (body : ContactModel) (owner : UserRec) (now : Nat) :
    ((∃ c ∈ store, c.email = body.email ∨ c.phone = body.phone) →
      create_contact store body owner now =
        Except.error ⟨400, "Contact with this email or phone number already exists."⟩)
  ∧ ((∀ c ∈ store, c.email ≠ body.email ∧ c.phone ≠ body.phone) →
      ∃ c2, create_contact store body owner now =
          Except.ok (c2, store ++ [c2]) ∧
        c2.user_id = owner.id ∧ c2.name = body.name ∧
        c2.surname = body.surname ∧ c2.email = body.email ∧
        c2.phone = body.phone ∧ c2.birthday = body.birthday ∧
        c2.info = body.info ∧ c2.created_at = now) := by
  constructor
  · rintro ⟨c, hc, hor⟩
    have hex : is_contact_exists store body.email body.phone = true := by
      unfold is_contact_exists
      refine List.any_eq_true.mpr ⟨c, hc, ?_⟩
      rcases hor with h | h <;> simp [h]
    simp [create_contact, hex]
  · intro h
    have hex : is_contact_exists store body.email body.phone = false := by
      unfold is_contact_exists
      refine Bool.eq_false_iff.mpr ?_
      intro htrue
      obtain ⟨c, hc, hcp⟩ := List.any_eq_true.mp htrue
      simp only [Bool.or_eq_true, beq_iff_eq] at hcp
      rcases hcp with h1 | h1
      · exact (h c hc).1 h1
      · exact (h c hc).2 h1
    refine ⟨{ id := nextContactId store, name := body.name,
              surname := body.surname, email := body.email,
              phone := body.phone, birthday := body.birthday,
              info := body.info, created_at := now, updated_at := none,
              user_id := owner.id },
            ?_, rfl, rfl, rfl, rfl, rfl, rfl, rfl, rfl⟩
    simp [create_contact, hex, repo_create_contact]

/-- Witness for C4 at a concrete input: a second contact reusing an
existing phone, requested by a different owner, is rejected with the
Duplicate error. -/
theorem c4_witness :
    create_contact
        [⟨1, "Bob", "Lee", "bob@x.com", "+15551234567", ⟨1990, 5, 1⟩, none, 0, none, 1⟩]
        ⟨"Ann", "Poe", "ann@x.com", "+15551234567", ⟨1991, 6, 2⟩, none, 2⟩
        ⟨2, "carol", "c@x.com", "h2", true, none⟩ 5 =
      Except.error ⟨400, "Contact with this email or phone number already exists."⟩ :=
  (c4_create_contact_global_duplicate
      [⟨1, "Bob", "Lee", "bob@x.com", "+15551234567", ⟨1990, 5, 1⟩, none, 0, none, 1⟩]
      ⟨"Ann", "Poe", "ann@x.com", "+15551234567", ⟨1991, 6, 2⟩, none, 2⟩
      ⟨2, "carol", "c@x.com", "h2", true, none⟩ 5).1
    ⟨⟨1, "Bob", "Lee", "bob@x.com", "+15551234567", ⟨1990, 5, 1⟩, none, 0, none, 1⟩,
     by decide, Or.inr (by decide)⟩

/-- C5: on a contacts table with unique ids, each of get, update and
remove answers 404 Contact not found exactly when no contact with the
id exists under the requesting owner, hence always when the contact
belongs to a different user; on success get returns the contact,
update rewrites exactly that row to the body with updated_at refreshed
and id, created_at and owner kept, and remove hard-deletes the row. -/
theorem c5_contact_crud_owner_scoped (store : ContactStore) (cid : Nat)
    (body : ContactModel) (owner : UserRec) (now : Nat)
    (hids : (store.map Contact.id).Nodup) :
    (get_contact store cid owner = Except.error ⟨404, "Contact not found"⟩ ↔
      no_owned_contact store cid owner)
  ∧ (update_contact store cid body owner now =
      Except.error ⟨404, "Contact not found"⟩ ↔ no_owned_contact store cid owner)
  ∧ (remove_contact store cid owner = Except.error ⟨404, "Contact not found"⟩ ↔
      no_owned_contact store cid owner)
  ∧ (∀ c ∈ store, c.id = cid → c.user_id = owner.id →
      get_contact store cid owner = Except.ok c ∧
      remove_contact store cid owner = Except.ok (c, store.erase c) ∧
      (∀ x : Contact, x ∈ store.erase c ↔ x ∈ store ∧ x ≠ c) ∧
      (store.erase c).length = store.length - 1 ∧
      (∃ i : Nat, store[i]? = some c ∧
        update_contact store cid body owner now =
          Except.ok (applyUpdate c body now,
            store.set i (applyUpdate c body now))) ∧
      (applyUpdate c body now).updated_at = some now ∧
      (applyUpdate c body now).created_at = c.created_at ∧
      (applyUpdate c body now).id = c.id ∧
      (applyUpdate c body now).user_id = c.user_id ∧
      (applyUpdate c body now).name = body.name ∧
      (applyUpdate c body now).surname = body.surname ∧
      (applyUpdate c body now).email = body.email ∧
      (applyUpdate c body now).phone = body.phone ∧
      (applyUpdate c body now).birthday = body.birthday ∧
      (applyUpdate c body now).info = body.info) := by
  have hnodup : store.Nodup := List.Nodup.of_map Contact.id hids
  by_cases hno : no_owned_contact store cid owner
  · have hfind : get_contact_by_id store cid owner = none :=
      get_contact_by_id_eq_none store cid owner hno
    have hupd := repo_update_none store cid body owner now hfind
    refine ⟨?_, ?_, ?_, ?_⟩
    · simp only [get_contact, hfind]
      exact iff_of_true trivial hno
    · simp only [update_contact, hupd]
      exact iff_of_true trivial hno
    · simp only [remove_contact, repo_remove_contact, hfind]
      exact iff_of_true trivial hno
    · intro c hc hcid hcu
      exact absurd hcu (hno c hc hcid)
  · have hex : ∃ c ∈ store, c.id = cid ∧ c.user_id = owner.id := by
      unfold no_owned_contact at hno
      push_neg at hno
      exact hno
    obtain ⟨c, hc, hcid, hcu⟩ := hex
    have hfind : get_contact_by_id store cid owner = some c :=
      get_contact_by_id_of_unique store cid owner c hids hc hcid hcu
    have hget : get_contact store cid owner = Except.ok c := by
      simp [get_contact, hfind]
    obtain ⟨i, hi, hupd⟩ := repo_update_found store cid body owner now c hfind
    have hupdc : update_contact store cid body owner now =
        Except.ok (applyUpdate c body now,
          store.set i (applyUpdate c body now)) := by
      simp [update_contact, hupd]
    have hrem : remove_contact store cid owner =
        Except.ok (c, store.erase c) := by
      simp [remove_contact, repo_remove_contact, hfind]
    refine ⟨?_, ?_, ?_, ?_⟩
    · rw [hget]
      constructor
      · intro h
        exact absurd h (by simp)
      · intro h
        exact absurd h hno
    · rw [hupdc]
      constructor
      · intro h
        exact absurd h (by simp)
      · intro h
        exact absurd h hno
    · rw [hrem]
      constructor
      · intro h
        exact absurd h (by simp)
      · intro h
        exact absurd h hno
    · intro c2 hc2 hcid2 hcu2
      have hcc : c2 = c :=
        List.inj_on_of_nodup_map hids hc2 hc (by rw [hcid2, hcid])
      subst hcc
      refine ⟨hget, hrem, ?_, List.length_erase_of_mem hc, ⟨i, hi, hupdc⟩,
        rfl, rfl, rfl, rfl, rfl, rfl, rfl, rfl, rfl, rfl⟩
      intro x
      exact Iff.trans (List.Nodup.mem_erase_iff hnodup) and_comm

/-- Witness for C5 at concrete inputs: with two contacts of distinct
ids owned by users 1 and 2, user 1 requesting contact 2, which belongs
to user 2, gets 404 Contact not found, while requesting its own
contact 1 succeeds. -/
theorem c5_witness :
    get_contact
        [⟨1, "Bob", "Lee", "bob@x.com", "+15551234567", ⟨1990, 5, 1⟩, none, 0, none, 1⟩,
         ⟨2, "Ann", "Poe", "ann@x.com", "+15557654321", ⟨1991, 6, 2⟩, none, 0, none, 2⟩]
        2 ⟨1, "alice", "a@x.com", "h1", true, none⟩ =
      Except.error ⟨404, "Contact not found"⟩
  ∧ get_contact
        [⟨1, "Bob", "Lee", "bob@x.com", "+15551234567", ⟨1990, 5, 1⟩, none, 0, none, 1⟩,
         ⟨2, "Ann", "Poe", "ann@x.com", "+15557654321", ⟨1991, 6, 2⟩, none, 0, none, 2⟩]
        1 ⟨1, "alice", "a@x.com", "h1", true, none⟩ =
      Except.ok ⟨1, "Bob", "Lee", "bob@x.com", "+15551234567", ⟨1990, 5, 1⟩, none, 0, none, 1⟩ :=
  ⟨(c5_contact_crud_owner_scoped
      [⟨1, "Bob", "Lee", "bob@x.com", "+15551234567", ⟨1990, 5, 1⟩, none, 0, none, 1⟩,
       ⟨2, "Ann", "Poe", "ann@x.com", "+15557654321", ⟨1991, 6, 2⟩, none, 0, none, 2⟩]
      2 ⟨"N", "S", "n@x.com", "+15550000001", ⟨1990, 1, 1⟩, none, 1⟩
      ⟨1, "alice", "a@x.com", "h1", true, none⟩ 0 (by decide)).1.mpr (by decide),
   ((c5_contact_crud_owner_scoped
      [⟨1, "Bob", "Lee", "bob@x.com", "+15551234567", ⟨1990, 5, 1⟩, none, 0, none, 1⟩,
       ⟨2, "Ann", "Poe", "ann@x.com", "+15557654321", ⟨1991, 6, 2⟩, none, 0, none, 2⟩]
      1 ⟨"N", "S", "n@x.com", "+15550000001", ⟨1990, 1, 1⟩, none, 1⟩
      ⟨1, "alice", "a@x.com", "h1", true, none⟩ 0 (by decide)).2.2.2
      ⟨1, "Bob", "Lee", "bob@x.com", "+15551234567", ⟨1990, 5, 1⟩, none, 0, none, 1⟩
      (by decide) (by decide) (by decide)).1⟩

/-- C6: confirming an email answers 400 when no user has the email;
answers the already-verified message without touching the store when
the user is verified; otherwise flips exactly the is_verified flag of
that user to true. The transition is one-way: marking verified never clears
a set flag on any row, a repeat confirmation after success reports the
already-verified state on the unchanged store, the avatar update
preserves every is_verified flag, and a successful registration leaves
every existing row in place. -/
theorem c6_confirm_email_one_way (store : UserStore) (email : String) :
    ((∀ u ∈ store, u.email ≠ email) →
      confirmed_email_route store email =
        Except.error ⟨400, "Verification error"⟩)
  ∧ (∀ u : UserRec, get_user_by_email store email = some u →
      u.is_verified = true →
      confirmed_email_route store email =
        Except.ok ("Your email is already verified", store))
  ∧ (∀ u : UserRec, get_user_by_email store email = some u →
      u.is_verified = false →
      confirmed_email_route store email =
        Except.ok ("Email verified successfully",
          confirmed_email_repo store email) ∧
      get_user_by_email (confirmed_email_repo store email) email =
        some { u with is_verified := true })
  ∧ (∀ (i : Nat) (u : UserRec), store[i]? = some u →
      ∃ v, (confirmed_email_repo store email)[i]? = some v ∧
        (v = u ∨ (u.email = email ∧ v = { u with is_verified := true })) ∧
        (u.is_verified = true → v.is_verified = true))
  ∧ (∀ u : UserRec, get_user_by_email store email = some u →
      confirmed_email_route (confirmed_email_repo store email) email =
        Except.ok ("Your email is already verified",
          confirmed_email_repo store email))
  ∧ (∀ (e2 url : String) (i : Nat) (u : UserRec), store[i]? = some u →
      ∃ v, (update_avatar_url store e2 url).2[i]? = some v ∧
        v.is_verified = u.is_verified)
  ∧ (∀ (hash : String → String) (uc : UserCreate) (out : UserOut)
        (s2 : UserStore),
      register_user hash store uc = Except.ok (out, s2) →
      ∀ (i : Nat) (u : UserRec), store[i]? = some u → s2[i]? = some u) := by
  refine ⟨?_, ?_, ?_, ?_, ?_, ?_, ?_⟩
  · intro h
    have hf := get_user_by_email_eq_none store email h
    simp [confirmed_email_route, hf]
  · intro u hu hv
    simp [confirmed_email_route, hu, hv]
  · intro u hu hv
    exact ⟨by simp [confirmed_email_route, hu, hv],
      confirmed_repo_find store email u hu⟩
  · intro i u h
    obtain ⟨v, hv1, hv2⟩ := confirmed_repo_get store email i u h
    refine ⟨v, hv1, hv2, ?_⟩
    intro hver
    rcases hv2 with rfl | ⟨-, rfl⟩
    · exact hver
    · simp
  · intro u hu
    have h2 := confirmed_repo_find store email u hu
    simp [confirmed_email_route, h2]
  · intro e2 url i u h
    obtain ⟨v, hv1, hv2⟩ := update_avatar_get store e2 url i u h
    refine ⟨v, hv1, ?_⟩
    rcases hv2 with rfl | ⟨-, rfl⟩
    · rfl
    · rfl
  · intro hash uc out s2 h i u hi
    obtain ⟨w, rfl⟩ := register_ok_append hash store uc out s2 h
    have hlt : i < store.length := (List.getElem?_eq_some.mp hi).1
    rw [List.getElem?_append_left hlt]
    exact hi

/-- Witness for C6 at a concrete input: confirming the email of the
single unverified user on file succeeds and the follow-up lookup sees
the flag set. -/
theorem c6_witness :
    confirmed_email_route [⟨1, "alice", "alice@x.com", "h1", false, none⟩]
        ("alice@x.com") =
      Except.ok ("Email verified successfully",
        confirmed_email_repo [⟨1, "alice", "alice@x.com", "h1", false, none⟩]
          ("alice@x.com"))
  ∧ get_user_by_email
      (confirmed_email_repo [⟨1, "alice", "alice@x.com", "h1", false, none⟩]
        ("alice@x.com")) ("alice@x.com") =
      some ⟨1, "alice", "alice@x.com", "h1", true, none⟩ :=
  (c6_confirm_email_one_way [⟨1, "alice", "alice@x.com", "h1", false, none⟩]
      ("alice@x.com")).2.2.1
    ⟨1, "alice", "alice@x.com", "h1", false, none⟩ (by decide) (by decide)

/-- C7: the birthday-lookahead query returns exactly those contacts of
the owner whose birthday month and day, the year ignored, equal those of
some date at most the given number of days after today, the inclusive
window handling month and year wraparound; concretely, the window of 7
days from 2024-12-29 contains the month-day 01-03 and not 01-06. -/
theorem c7_upcoming_birthdays_window :
    (∀ (store : ContactStore) (days : Nat) (owner : UserRec) (today : Date)
        (c : Contact),
      c ∈ get_upcoming_birthdays store days owner today ↔
        c ∈ store ∧ c.user_id = owner.id ∧
          ∃ k, k ≤ days ∧ (today.addDays k).month = c.birthday.month ∧
            (today.addDays k).day = c.birthday.day)
  ∧ birthdayInWindow ⟨2024, 12, 29⟩ 7 ⟨1990, 1, 3⟩ = true
  ∧ birthdayInWindow ⟨2024, 12, 29⟩ 7 ⟨1995, 1, 6⟩ = false := by
  refine ⟨?_, by decide, by decide⟩
  intro store days owner today c
  simp only [get_upcoming_birthdays, List.mem_filter, Bool.and_eq_true,
    beq_iff_eq, birthdayInWindow, List.any_eq_true, List.mem_range,
    Nat.lt_succ_iff]

/-- Witness for C7 at a concrete input: a contact born 1990-01-03 owned
by the requesting user is in the 7-day window of 2024-12-29. -/
theorem c7_witness :
    (⟨1, "Bob", "Lee", "bob@x.com", "+15551234567", ⟨1990, 1, 3⟩, none, 0, none, 1⟩ : Contact) ∈
      get_upcoming_birthdays
        [⟨1, "Bob", "Lee", "bob@x.com", "+15551234567", ⟨1990, 1, 3⟩, none, 0, none, 1⟩]
        7 ⟨1, "alice", "a@x.com", "h1", true, none⟩ ⟨2024, 12, 29⟩ :=
  (c7_upcoming_birthdays_window.1
      [⟨1, "Bob", "Lee", "bob@x.com", "+15551234567", ⟨1990, 1, 3⟩, none, 0, none, 1⟩]
      7 ⟨1, "alice", "a@x.com", "h1", true, none⟩ ⟨2024, 12, 29⟩
      ⟨1, "Bob", "Lee", "bob@x.com", "+15551234567", ⟨1990, 1, 3⟩, none, 0, none, 1⟩).mpr
    ⟨by decide, by decide, 5, by decide, by decide, by decide⟩

/-- Declarative reading of the anchored phone pattern: an optional
plus, a leading digit 1-9, then one to fourteen digits and nothing
else. -/
theorem phoneRegexAccepts_iff (s : String) :
    phoneRegexAccepts s = true ↔
      ∃ (opt : Bool) (d : Char) (tail : List Char),
        s.toList = (if opt then ['+'] else []) ++ d :: tail ∧
        isNonZeroDigit d = true ∧ 1 ≤ tail.length ∧ tail.length ≤ 14 ∧
        ∀ ch ∈ tail, isAsciiDigit ch = true := by
  unfold phoneRegexAccepts
  rcases hl : s.toList with _ | ⟨c, rest⟩
  · constructor
    · intro h
      exact absurd h (by simp)
    · rintro ⟨opt, d, tail, heq, -⟩
      cases opt <;> simp at heq
  · by_cases hc : c = '+'
    · subst hc
      rcases rest with _ | ⟨d, tail⟩
      · constructor
        · intro h
          exact absurd h (by simp)
        · rintro ⟨opt, d, tail, heq, hd, h1, -⟩
          cases opt
          · simp only [if_neg Bool.false_ne_true, List.nil_append,
              List.cons.injEq] at heq
            obtain ⟨rfl, htail⟩ := heq
            exact absurd hd (by decide)
          · simp at heq
      · constructor
        · intro h
          simp only [beq_self_eq_true, if_true, Bool.and_eq_true,
            decide_eq_true_eq, List.all_eq_true] at h
          exact ⟨true, d, tail, by simp, h.1.1.1, h.1.1.2, h.1.2, h.2⟩
        · rintro ⟨opt, d2, tail2, heq, hd2, h1, h14, hall⟩
          cases opt
          · simp only [if_neg Bool.false_ne_true, List.nil_append,
              List.cons.injEq] at heq
            obtain ⟨rfl, -⟩ := heq
            exact absurd hd2 (by decide)
          · simp only [if_pos rfl, List.cons_append, List.nil_append,
              List.cons.injEq] at heq
            obtain ⟨-, rfl, rfl⟩ := heq
            simp only [beq_self_eq_true, if_true, Bool.and_eq_true,
              decide_eq_true_eq, List.all_eq_true]
            exact ⟨⟨⟨hd2, h1⟩, h14⟩, hall⟩
    · have hc2 : (c == '+') = false := by
        simpa using hc
      constructor
      · intro h
        simp only [hc2, Bool.false_eq_true, if_false, Bool.and_eq_true,
          decide_eq_true_eq, List.all_eq_true] at h
        exact ⟨false, c, rest, by simp, h.1.1.1, h.1.1.2, h.1.2, h.2⟩
      · rintro ⟨opt, d2, tail2, heq, hd2, h1, h14, hall⟩
        cases opt
        · simp only [if_neg Bool.false_ne_true, List.nil_append,
            List.cons.injEq] at heq
          obtain ⟨rfl, rfl⟩ := heq
          simp only [hc2, Bool.false_eq_true, if_false, Bool.and_eq_true,
            decide_eq_true_eq, List.all_eq_true]
          exact ⟨⟨⟨hd2, h1⟩, h14⟩, hall⟩
        · simp at heq
          exact absurd heq.1 hc

/-- C9 counterexample: the request body phone +12 matches the claimed
pattern yet the schema rejects it, because the Field constraint
min_length 7 also applies, so acceptance is not equivalent to matching
the pattern. -/
theorem c9_phone_validation_counterexample :
    ¬ (validate_phone_field ("+12") = true ↔
        phoneRegexAccepts ("+12") = true) := by
  decide

/-- C9 (amended): the schema accepts the phone field exactly when it
matches the anchored international pattern and its length lies between
the Field bounds 7 and 20; and the schema rejects a birthday exactly
when it lies strictly after today. -/
theorem c9_validation_amended :
    (∀ s : String, validate_phone_field s = true ↔
      ((∃ (opt : Bool) (d : Char) (tail : List Char),
          s.toList = (if opt then ['+'] else []) ++ d :: tail ∧
          isNonZeroDigit d = true ∧ 1 ≤ tail.length ∧ tail.length ≤ 14 ∧
          ∀ ch ∈ tail, isAsciiDigit ch = true) ∧
        7 ≤ s.toList.length ∧ s.toList.length ≤ 20))
  ∧ (∀ today b : Date, validate_birthday_field today b = false ↔
      Date.lt today b = true) := by
  constructor
  · intro s
    unfold validate_phone_field
    simp only [Bool.and_eq_true, decide_eq_true_eq]
    rw [phoneRegexAccepts_iff]
    tauto
  · intro today b
    unfold validate_birthday_field
    cases h : Date.lt today b <;> simp [h]

/-- Witness for the amended C9 at a concrete input: the example phone
+380501234567 is accepted, so it matches the pattern and the length
bounds. -/
theorem c9_witness :
    (∃ (opt : Bool) (d : Char) (tail : List Char),
        ("+380501234567").toList = (if opt then ['+'] else []) ++ d :: tail ∧
        isNonZeroDigit d = true ∧ 1 ≤ tail.length ∧ tail.length ≤ 14 ∧
        ∀ ch ∈ tail, isAsciiDigit ch = true) ∧
      7 ≤ ("+380501234567").toList.length ∧
      ("+380501234567").toList.length ≤ 20 :=
  (c9_validation_amended.1 ("+380501234567")).mp (by decide)

end ContactsApp
